import Mathlib

set_option autoImplicit false
set_option linter.unusedVariables false

/-!
Shallow embedding of the cache store defined in
`src/stores/testStore.ts` (the `defineCacheStore` generic cache layer
and the `testStore` instantiation over `Org` records).

Time is modelled as a natural number of milliseconds (the value of
`Date.getTime()`); each asynchronous operation takes the current time
`now` and the outcome of the Backend call it would perform as explicit
parameters (`Except Unit _`: `.ok` for a resolved promise, `.error` for
a rejected one).  Every operation reports the number of Backend calls
it made, so cache-hit paths are observable as `backendCalls = 0`.
-/

/-- Just wraps the item and tracks the last fetched time for the cache
(interface `StoreItem` in the source). -/
structure StoreItem (T : Type) where
  item : T
  lastFetched : Nat
deriving Repr, DecidableEq

/-- The mutable state owned by `defineCacheStore`: the `allItems` ref and
the `lastFetchedAllItems` ref. -/
structure CacheState (T : Type) where
  allItems : List (StoreItem T)
  lastFetchedAllItems : Option Nat
deriving Repr, DecidableEq

/-- The state a store starts from: `ref([])` and `ref(undefined)`. -/
def emptyCache (T : Type) : CacheState T :=
  { allItems := [], lastFetchedAllItems := none }

/-- Outcome of one public cache operation: the new cache state, the value
the async function resolves to (`none` models `undefined`), and how many
Backend calls were made while running it. -/
structure OpOutcome (T R : Type) where
  state : CacheState T
  ret : Option R
  backendCalls : Nat
deriving Repr, DecidableEq

/-- Helper function to check if the cache has expired
(`new Date().getTime() - lastFetched.getTime() > cacheMs`); `now` is the
current time that the source reads from a fresh `Date`.  Truncated
subtraction agrees with the JavaScript signed subtraction here: when
`now < lastFetched` both sides report "not expired" since `cacheMs` is
nonnegative. -/
def cacheHasExpired (lastFetched cacheMs now : Nat) : Bool :=
  now - lastFetched > cacheMs

section CacheStore

variable {T : Type} {Uid : Type} [DecidableEq Uid]
variable (getUid : T → Uid)
variable (allItemsCacheMs singleItemCacheMs : Nat)

/-- This helper function adds or replaces an item in the store and sets
the last fetched timestamp (`updateStoreItem` in the source:
`findIndex` on matching uid, then `push` when absent or
`splice(index, 1, storeItem)` when present). -/
def updateStoreItem (now : Nat) (newItem : T) (allItems : List (StoreItem T)) :
    List (StoreItem T) :=
  let storeItem : StoreItem T := ⟨newItem, now⟩
  match allItems.findIdx? (fun e => getUid e.item == getUid newItem) with
  | none => allItems ++ [storeItem]
  | some index => allItems.set index storeItem

/-- The guard of the fast path of `getAllItems`:
`lastFetched && !cacheHasExpired(lastFetched, allItemsCacheMs)`. -/
def collectionCacheValid (now : Nat) (s : CacheState T) : Bool :=
  match s.lastFetchedAllItems with
  | some lastFetched => !(cacheHasExpired lastFetched allItemsCacheMs now)
  | none => false

/-- `getAllItems`: return the cached entries when the collection cache is
still valid; otherwise await the Backend fetch-all.  On success replace
the whole entry list with the stamped records, set
`lastFetchedAllItems`, and return the new list; on rejection the `catch`
logs and the function resolves to `undefined` with the state untouched. -/
def getAllItems (now : Nat) (backend : Except Unit (List T)) (s : CacheState T) :
    OpOutcome T (List (StoreItem T)) :=
  if collectionCacheValid allItemsCacheMs now s then
    ⟨s, some s.allItems, 0⟩
  else
    match backend with
    | .ok items =>
        let newItems := items.map (fun item => (⟨item, now⟩ : StoreItem T))
        ⟨⟨newItems, some now⟩, some newItems, 1⟩
    | .error _ => ⟨s, none, 1⟩

/-- The try block of `getSingleItem`: await the Backend fetch-one; a
missing record throws `Item not found`, and that throw as well as a
rejection is caught, so both resolve to `undefined` with the state
untouched; a returned record is upserted via `updateStoreItem` and
returned. -/
def singleFetchPath (now : Nat) (backend : Except Unit (Option T))
    (s : CacheState T) : OpOutcome T T :=
  match backend with
  | .ok (some freshItem) =>
      ⟨⟨updateStoreItem getUid now freshItem s.allItems, s.lastFetchedAllItems⟩,
        some freshItem, 1⟩
  | .ok none => ⟨s, none, 1⟩
  | .error _ => ⟨s, none, 1⟩

/-- `getSingleItem(id)`: find the entry by uid; when present and fresh,
return a copy of the cached item with no Backend call; otherwise run the
try block `singleFetchPath`. -/
def getSingleItem (now : Nat) (id : Uid) (backend : Except Unit (Option T))
    (s : CacheState T) : OpOutcome T T :=
  match s.allItems.find? (fun e => getUid e.item == id) with
  | some existingItem =>
      if !(cacheHasExpired existingItem.lastFetched singleItemCacheMs now) then
        ⟨s, some existingItem.item, 0⟩
      else singleFetchPath getUid now backend s
  | none => singleFetchPath getUid now backend s

/-- `updateItem(id, item)`: await the Backend update; on success upsert
the returned record (matched by its own uid, not by `id`) and return it;
on rejection log and resolve to `undefined` with the state untouched. -/
def updateItem (now : Nat) (backend : Except Unit T) (id : Uid) (item : T)
    (s : CacheState T) : OpOutcome T T :=
  match backend with
  | .ok updatedItem =>
      ⟨⟨updateStoreItem getUid now updatedItem s.allItems, s.lastFetchedAllItems⟩,
        some updatedItem, 1⟩
  | .error _ => ⟨s, none, 1⟩

/-- `createItem(item)`: await the Backend create; on success upsert the
returned record and return it; on rejection log and resolve to
`undefined` with the state untouched. -/
def createItem (now : Nat) (backend : Except Unit T) (item : T)
    (s : CacheState T) : OpOutcome T T :=
  match backend with
  | .ok createdItem =>
      ⟨⟨updateStoreItem getUid now createdItem s.allItems, s.lastFetchedAllItems⟩,
        some createdItem, 1⟩
  | .error _ => ⟨s, none, 1⟩

/-- The reactive values held by one `itemHelpers(id)` binding: the bound
`item.value`, and the `getting` and `saving` flags. -/
structure ItemBinding (T : Type) where
  value : Option T
  getting : Bool
  saving : Bool
deriving Repr, DecidableEq

/-- The binding `itemHelpers(id)` returns at creation time:
`item = reactive({ value: undefined })`, `getting = ref(true)`,
`saving = ref(false)`. -/
def itemHelpers (T : Type) (id : Uid) : ItemBinding T :=
  { value := none, getting := true, saving := false }

/-- The `get` closure of `itemHelpers(id)`: set `getting` true, await
`getSingleItem(id)` into `item.value`, set `getting` false.  The final
binding therefore has `getting = false` and holds the resolved value. -/
def bindingGet (now : Nat) (id : Uid) (backend : Except Unit (Option T))
    (b : ItemBinding T) (s : CacheState T) : ItemBinding T × CacheState T :=
  let r := getSingleItem getUid singleItemCacheMs now id backend s
  ({ b with value := r.ret, getting := false }, r.state)

/-- The `saveItem` closure of `itemHelpers(id)`: return at once when no
value is bound; otherwise set `saving` true, derive the id from the
bound value with `getUid`, await `updateItem`, set `saving` false.
Since `updateItem` catches every Backend rejection internally, its
promise always fulfills, so the final `saving := false` write runs on
the failure path as well. -/
def saveItem (now : Nat) (backend : Except Unit T) (b : ItemBinding T)
    (s : CacheState T) : ItemBinding T × CacheState T :=
  match b.value with
  | none => (b, s)
  | some v =>
      let r := updateItem getUid now backend (getUid v) v s
      ({ b with saving := false }, r.state)

/-- The identifier-uniqueness invariant on the entry list of a
`CacheState`: at most one entry per uid. -/
def uidUnique (l : List (StoreItem T)) : Prop :=
  (l.map (fun e => getUid e.item)).Nodup

instance uidUniqueDecidable (l : List (StoreItem T)) :
    Decidable (uidUnique getUid l) :=
  List.nodupDecidable _

/-- One public cache operation together with the inputs it consumes: the
current time and the Backend outcome it observes. -/
inductive CacheOp (T Uid : Type) where
  | opGetAll (now : Nat) (backend : Except Unit (List T))
  | opGetSingle (now : Nat) (id : Uid) (backend : Except Unit (Option T))
  | opUpdate (now : Nat) (id : Uid) (record : T) (backend : Except Unit T)
  | opCreate (now : Nat) (record : T) (backend : Except Unit T)

/-- The cache state reached by running one public operation. -/
def applyOp (s : CacheState T) : CacheOp T Uid → CacheState T
  | .opGetAll now b => (getAllItems allItemsCacheMs now b s).state
  | .opGetSingle now id b => (getSingleItem getUid singleItemCacheMs now id b s).state
  | .opUpdate now id r b => (updateItem getUid now b id r s).state
  | .opCreate now r b => (createItem getUid now b r s).state

/-- The cache state reached by running a sequence of public operations. -/
def runOps (s : CacheState T) (ops : List (CacheOp T Uid)) : CacheState T :=
  ops.foldl (applyOp getUid allItemsCacheMs singleItemCacheMs) s

end CacheStore

/-- The record type of the `testStore` instantiation. -/
structure Org where
  name : String
  id : Nat
deriving Repr, DecidableEq

/-- The `getUid` option of the `testStore` instantiation:
`(org) => org.id`. -/
def orgUid : Org → Nat := fun org => org.id

section UpsertLemmas

variable {T : Type} {Uid : Type} [DecidableEq Uid]
variable (getUid : T → Uid)

/-- Structural-recursion rendering of `updateStoreItem`: replace the first
entry whose uid matches, or append when none does.  Proved equal to
`updateStoreItem` below; used to reason by induction. -/
def upsertRec (now : Nat) (newItem : T) : List (StoreItem T) → List (StoreItem T)
  | [] => [⟨newItem, now⟩]
  | e :: rest =>
      if getUid e.item = getUid newItem then ⟨newItem, now⟩ :: rest
      else e :: upsertRec now newItem rest

theorem updateStoreItem_eq_upsertRec (now : Nat) (r : T) (l : List (StoreItem T)) :
    updateStoreItem getUid now r l = upsertRec getUid now r l := by
  induction l with
  | nil => rfl
  | cons e rest ih =>
    unfold updateStoreItem upsertRec
    rw [List.findIdx?_cons]
    by_cases h : getUid e.item = getUid r
    · simp [h]
    · rw [if_neg (by simp [h]), List.findIdx?_succ]
      unfold updateStoreItem at ih
      cases hf : rest.findIdx? (fun e => getUid e.item == getUid r) with
      | none =>
        rw [hf] at ih
        simp only [hf, Option.map_none']
        simpa [h] using congrArg (e :: ·) ih
      | some i =>
        rw [hf] at ih
        simp only [hf, Option.map_some']
        simpa [h, List.set] using congrArg (e :: ·) ih

theorem upsertRec_of_no_match (now : Nat) (r : T) (l : List (StoreItem T))
    (h : ∀ e ∈ l, getUid e.item ≠ getUid r) :
    upsertRec getUid now r l = l ++ [⟨r, now⟩] := by
  induction l with
  | nil => rfl
  | cons e rest ih =>
    have he : getUid e.item ≠ getUid r := h e (List.mem_cons_self e rest)
    simp only [upsertRec, if_neg he, List.cons_append]
    exact congrArg (e :: ·) (ih fun x hx => h x (List.mem_cons_of_mem e hx))

theorem upsertRec_getElem?_of_ne (now : Nat) (r : T) (l : List (StoreItem T))
    (j : Nat) (e : StoreItem T) (hj : l[j]? = some e)
    (hne : getUid e.item ≠ getUid r) :
    (upsertRec getUid now r l)[j]? = some e := by
  induction l generalizing j with
  | nil => simp at hj
  | cons x rest ih =>
    unfold upsertRec
    by_cases h : getUid x.item = getUid r
    · rw [if_pos h]
      cases j with
      | zero =>
        rw [List.getElem?_cons_zero] at hj
        exact absurd (h ▸ congrArg (fun t => getUid t.item) (Option.some.inj hj).symm) hne
      | succ n =>
        rw [List.getElem?_cons_succ] at hj ⊢
        exact hj
    · rw [if_neg h]
      cases j with
      | zero =>
        rw [List.getElem?_cons_zero] at hj ⊢
        exact hj
      | succ n =>
        rw [List.getElem?_cons_succ] at hj ⊢
        exact ih n hj

theorem map_uid_upsertRec_of_match (now : Nat) (r : T) (l : List (StoreItem T))
    (h : ∃ e ∈ l, getUid e.item = getUid r) :
    (upsertRec getUid now r l).map (fun e => getUid e.item) =
      l.map (fun e => getUid e.item) := by
  induction l with
  | nil => simp at h
  | cons x rest ih =>
    unfold upsertRec
    by_cases hx : getUid x.item = getUid r
    · rw [if_pos hx]
      simp [hx]
    · rw [if_neg hx]
      obtain ⟨e, he, heq⟩ := h
      rcases List.mem_cons.mp he with rfl | he'
      · exact absurd heq hx
      · simp only [List.map_cons]
        exact congrArg (getUid x.item :: ·) (ih ⟨e, he', heq⟩)

theorem map_uid_upsertRec_of_no_match (now : Nat) (r : T) (l : List (StoreItem T))
    (h : ∀ e ∈ l, getUid e.item ≠ getUid r) :
    (upsertRec getUid now r l).map (fun e => getUid e.item) =
      l.map (fun e => getUid e.item) ++ [getUid r] := by
  rw [upsertRec_of_no_match getUid now r l h]
  simp

theorem uidUnique_upsertRec (now : Nat) (r : T) (l : List (StoreItem T))
    (h : uidUnique getUid l) : uidUnique getUid (upsertRec getUid now r l) := by
  by_cases hm : ∃ e ∈ l, getUid e.item = getUid r
  · unfold uidUnique at h ⊢
    rw [map_uid_upsertRec_of_match getUid now r l hm]
    exact h
  · push_neg at hm
    unfold uidUnique at h ⊢
    rw [map_uid_upsertRec_of_no_match getUid now r l hm]
    rw [List.nodup_append]
    refine ⟨h, List.nodup_singleton _, ?_⟩
    intro u hu hu'
    rw [List.mem_singleton] at hu'
    obtain ⟨e, he, rfl⟩ := List.mem_map.mp hu
    exact hm e he hu'

theorem upsertRec_of_match (now : Nat) (r : T) (l : List (StoreItem T))
    (h : uidUnique getUid l) (e : StoreItem T) (he : e ∈ l)
    (huid : getUid e.item = getUid r) :
    ∃ i, l[i]? = some e ∧ upsertRec getUid now r l = l.set i ⟨r, now⟩ := by
  induction l with
  | nil => cases he
  | cons x rest ih =>
    have hx_notin : getUid x.item ∉ rest.map (fun e => getUid e.item) :=
      (List.nodup_cons.mp h).1
    have hrest : uidUnique getUid rest := (List.nodup_cons.mp h).2
    by_cases hx : getUid x.item = getUid r
    · have hex : e = x := by
        rcases List.mem_cons.mp he with rfl | he'
        · rfl
        · exact absurd (List.mem_map.mpr ⟨e, he', huid.trans hx.symm⟩) hx_notin
      refine ⟨0, by simp [hex], ?_⟩
      unfold upsertRec
      rw [if_pos hx]
      rfl
    · have he' : e ∈ rest := by
        rcases List.mem_cons.mp he with rfl | he'
        · exact absurd huid hx
        · exact he'
      obtain ⟨i, h1, h2⟩ := ih hrest he'
      refine ⟨i + 1, by simpa using h1, ?_⟩
      unfold upsertRec
      rw [if_neg hx, List.set_cons_succ]
      exact congrArg (x :: ·) h2

theorem filter_upsertRec (now : Nat) (r : T) (l : List (StoreItem T))
    (h : uidUnique getUid l) :
    (upsertRec getUid now r l).filter (fun e => getUid e.item == getUid r) =
      [⟨r, now⟩] := by
  induction l with
  | nil => simp [upsertRec]
  | cons x rest ih =>
    have hx_notin : getUid x.item ∉ rest.map (fun e => getUid e.item) :=
      (List.nodup_cons.mp h).1
    have hrest : uidUnique getUid rest := (List.nodup_cons.mp h).2
    unfold upsertRec
    by_cases hx : getUid x.item = getUid r
    · rw [if_pos hx]
      have hnone : rest.filter (fun e => getUid e.item == getUid r) = [] := by
        rw [List.filter_eq_nil_iff]
        intro e he hbeq
        exact hx_notin (List.mem_map.mpr ⟨e, he, (beq_iff_eq.mp hbeq).trans hx.symm⟩)
      simp [hnone]
    · rw [if_neg hx]
      rw [List.filter_cons_of_neg (by simpa using hx)]
      exact ih hrest

theorem mem_uid_upsertRec (now : Nat) (r : T) (l : List (StoreItem T)) (u : Uid)
    (hu : u ∈ (upsertRec getUid now r l).map (fun e => getUid e.item)) :
    u ∈ l.map (fun e => getUid e.item) ∨ u = getUid r := by
  induction l with
  | nil => simpa [upsertRec] using hu
  | cons x rest ih =>
    unfold upsertRec at hu
    by_cases hx : getUid x.item = getUid r
    · rw [if_pos hx] at hu
      rw [List.map_cons] at hu
      rcases List.mem_cons.mp hu with h | h
      · exact Or.inr h
      · exact Or.inl (by rw [List.map_cons]; exact List.mem_cons_of_mem _ h)
    · rw [if_neg hx] at hu
      rw [List.map_cons] at hu
      rcases List.mem_cons.mp hu with h | h
      · exact Or.inl (by rw [List.map_cons]; exact h ▸ List.mem_cons_self _ _)
      · rcases ih h with h' | h'
        · exact Or.inl (by rw [List.map_cons]; exact List.mem_cons_of_mem _ h')
        · exact Or.inr h'

end UpsertLemmas

section OpLemmas

variable {T : Type} {Uid : Type} [DecidableEq Uid]
variable (getUid : T → Uid)

theorem singleFetchPath_ok_some (now : Nat) (recd : T) (s : CacheState T) :
    singleFetchPath getUid now (Except.ok (some recd)) s =
      ⟨⟨updateStoreItem getUid now recd s.allItems, s.lastFetchedAllItems⟩,
        some recd, 1⟩ := rfl

theorem singleFetchPath_absent (now : Nat) (backend : Except Unit (Option T))
    (s : CacheState T)
    (h : backend = Except.error () ∨ backend = Except.ok none) :
    singleFetchPath getUid now backend s = ⟨s, none, 1⟩ := by
  rcases h with rfl | rfl <;> rfl

theorem getSingleItem_eq_hit_or_fetch (ms now : Nat) (id : Uid)
    (backend : Except Unit (Option T)) (s : CacheState T) :
    (∃ e, s.allItems.find? (fun x => getUid x.item == id) = some e ∧
      cacheHasExpired e.lastFetched ms now = false ∧
      getSingleItem getUid ms now id backend s = ⟨s, some e.item, 0⟩) ∨
    getSingleItem getUid ms now id backend s =
      singleFetchPath getUid now backend s := by
  unfold getSingleItem
  cases hf : s.allItems.find? (fun x => getUid x.item == id) with
  | none => right; rfl
  | some e =>
    by_cases hexp : cacheHasExpired e.lastFetched ms now = true
    · right
      simp [hexp]
    · left
      refine ⟨e, rfl, Bool.not_eq_true _ ▸ hexp, ?_⟩
      simp [Bool.not_eq_true _ ▸ hexp]

theorem getSingleItem_state_cases (ms now : Nat) (id : Uid)
    (backend : Except Unit (Option T)) (s : CacheState T) :
    (getSingleItem getUid ms now id backend s).state = s ∨
    ∃ recd, backend = Except.ok (some recd) ∧
      (getSingleItem getUid ms now id backend s).state =
        ⟨updateStoreItem getUid now recd s.allItems, s.lastFetchedAllItems⟩ := by
  rcases getSingleItem_eq_hit_or_fetch getUid ms now id backend s with
    ⟨e, _, _, heq⟩ | heq
  · left
    rw [heq]
  · rw [heq]
    cases backend with
    | error u => left; rfl
    | ok o =>
      cases o with
      | none => left; rfl
      | some recd => right; exact ⟨recd, rfl, rfl⟩

theorem updateItem_state_cases (now : Nat) (backend : Except Unit T) (id : Uid)
    (r : T) (s : CacheState T) :
    (updateItem getUid now backend id r s).state = s ∨
    ∃ u, backend = Except.ok u ∧
      (updateItem getUid now backend id r s).state =
        ⟨updateStoreItem getUid now u s.allItems, s.lastFetchedAllItems⟩ := by
  cases backend with
  | error e => left; rfl
  | ok u => right; exact ⟨u, rfl, rfl⟩

theorem createItem_state_cases (now : Nat) (backend : Except Unit T) (r : T)
    (s : CacheState T) :
    (createItem getUid now backend r s).state = s ∨
    ∃ u, backend = Except.ok u ∧
      (createItem getUid now backend r s).state =
        ⟨updateStoreItem getUid now u s.allItems, s.lastFetchedAllItems⟩ := by
  cases backend with
  | error e => left; rfl
  | ok u => right; exact ⟨u, rfl, rfl⟩

theorem applyOp_preserves_uidUnique (msAll msSingle : Nat) (s : CacheState T)
    (op : CacheOp T Uid) (h : uidUnique getUid s.allItems)
    (hop : ∀ now items, op = CacheOp.opGetAll now (Except.ok items) →
      (items.map getUid).Nodup) :
    uidUnique getUid ((applyOp getUid msAll msSingle s op).allItems) := by
  cases op with
  | opGetAll now b =>
    show uidUnique getUid ((getAllItems msAll now b s).state.allItems)
    unfold getAllItems
    split
    · exact h
    · cases b with
      | error e => exact h
      | ok items =>
        have hnodup := hop now items rfl
        unfold uidUnique
        simpa [List.map_map, Function.comp] using hnodup
  | opGetSingle now id b =>
    show uidUnique getUid ((getSingleItem getUid msSingle now id b s).state.allItems)
    rcases getSingleItem_state_cases getUid msSingle now id b s with hs | ⟨recd, _, hs⟩
    · rw [hs]; exact h
    · rw [hs]
      show uidUnique getUid (updateStoreItem getUid now recd s.allItems)
      rw [updateStoreItem_eq_upsertRec]
      exact uidUnique_upsertRec getUid now recd s.allItems h
  | opUpdate now id r b =>
    show uidUnique getUid ((updateItem getUid now b id r s).state.allItems)
    rcases updateItem_state_cases getUid now b id r s with hs | ⟨u, _, hs⟩
    · rw [hs]; exact h
    · rw [hs]
      show uidUnique getUid (updateStoreItem getUid now u s.allItems)
      rw [updateStoreItem_eq_upsertRec]
      exact uidUnique_upsertRec getUid now u s.allItems h
  | opCreate now r b =>
    show uidUnique getUid ((createItem getUid now b r s).state.allItems)
    rcases createItem_state_cases getUid now b r s with hs | ⟨u, _, hs⟩
    · rw [hs]; exact h
    · rw [hs]
      show uidUnique getUid (updateStoreItem getUid now u s.allItems)
      rw [updateStoreItem_eq_upsertRec]
      exact uidUnique_upsertRec getUid now u s.allItems h

theorem runOps_preserves_uidUnique (msAll msSingle : Nat)
    (ops : List (CacheOp T Uid)) :
    ∀ s : CacheState T, uidUnique getUid s.allItems →
    (∀ op ∈ ops, ∀ now items, op = CacheOp.opGetAll now (Except.ok items) →
      (items.map getUid).Nodup) →
    uidUnique getUid ((runOps getUid msAll msSingle s ops).allItems) := by
  induction ops with
  | nil => intro s h _; exact h
  | cons op rest ih =>
    intro s h hops
    show uidUnique getUid
      ((runOps getUid msAll msSingle (applyOp getUid msAll msSingle s op) rest).allItems)
    exact ih (applyOp getUid msAll msSingle s op)
      (applyOp_preserves_uidUnique getUid msAll msSingle s op h
        (hops op (List.mem_cons_self _ _)))
      (fun o ho => hops o (List.mem_cons_of_mem _ ho))

end OpLemmas

/-- C1: when `lastFetchedAllItems` is set and the elapsed time
`now - lastFetched` is at most `allItemsCacheMs`, `getAllItems` returns
the currently cached entry list unchanged, makes no Backend call
(`backendCalls = 0`), and leaves the whole cache state (entries and
collection timestamp) unchanged. -/
theorem getAllItems_fresh_cache_hit {T : Type} (allItemsCacheMs now lf : Nat)
    (backend : Except Unit (List T)) (s : CacheState T)
    (hlf : s.lastFetchedAllItems = some lf)
    (hfresh : now - lf ≤ allItemsCacheMs) :
    getAllItems allItemsCacheMs now backend s = ⟨s, some s.allItems, 0⟩ := by
  have hexp : cacheHasExpired lf allItemsCacheMs now = false := by
    simp only [cacheHasExpired, decide_eq_false_iff_not, gt_iff_lt, Nat.not_lt]
    exact hfresh
  have hvalid : collectionCacheValid allItemsCacheMs now s = true := by
    unfold collectionCacheValid
    rw [hlf]
    show (!cacheHasExpired lf allItemsCacheMs now) = true
    rw [hexp]
    rfl
  unfold getAllItems
  rw [hvalid]
  simp

/-- Witness for C1 at a concrete fresh state: one cached entry fetched at
time 500, queried at time 30000 with a 60000 ms TTL. -/
theorem getAllItems_fresh_cache_hit_witness :
    getAllItems 60000 30000 (Except.error ())
        (⟨[⟨⟨"Org 1", 1⟩, 500⟩], some 500⟩ : CacheState Org) =
      ⟨⟨[⟨⟨"Org 1", 1⟩, 500⟩], some 500⟩, some [⟨⟨"Org 1", 1⟩, 500⟩], 0⟩ :=
  getAllItems_fresh_cache_hit 60000 30000 500 (Except.error ())
    (⟨[⟨⟨"Org 1", 1⟩, 500⟩], some 500⟩ : CacheState Org) rfl (by decide)

/-- C2: when the collection timestamp is absent or expired and the
Backend fetch-all succeeds with `items`, `getAllItems` replaces the
entire entry list with the returned records in the returned order, each
stamped `now`, sets `lastFetchedAllItems := now`, returns the new list,
and afterwards the cache holds exactly `items.length` entries no matter
what the prior cache held. -/
theorem getAllItems_refetch_replaces {T : Type} (allItemsCacheMs now : Nat)
    (items : List T) (s : CacheState T)
    (hmiss : s.lastFetchedAllItems = none ∨
      ∃ lf, s.lastFetchedAllItems = some lf ∧ allItemsCacheMs < now - lf) :
    getAllItems allItemsCacheMs now (Except.ok items) s =
      ⟨⟨items.map (fun it => ⟨it, now⟩), some now⟩,
        some (items.map (fun it => ⟨it, now⟩)), 1⟩ ∧
    (getAllItems allItemsCacheMs now (Except.ok items) s).state.allItems.length =
      items.length := by
  have hvalid : collectionCacheValid allItemsCacheMs now s = false := by
    unfold collectionCacheValid
    rcases hmiss with h | ⟨lf, hlf, hexp⟩
    · rw [h]
    · rw [hlf]
      simp [cacheHasExpired, hexp]
  constructor
  · unfold getAllItems
    rw [hvalid]
    simp
  · unfold getAllItems
    rw [hvalid]
    simp

/-- Witness for C2: a two-entry expired cache refetched at time 5000 with
TTL 100 and a single returned record ends up with exactly that one
entry, stamped 5000. -/
theorem getAllItems_refetch_replaces_witness :
    (getAllItems 100 5000 (Except.ok [(⟨"Org 9", 9⟩ : Org)])
        (⟨[⟨⟨"Org 1", 1⟩, 0⟩, ⟨⟨"Org 2", 2⟩, 0⟩], some 0⟩ : CacheState Org) =
      ⟨⟨[⟨⟨"Org 9", 9⟩, 5000⟩], some 5000⟩, some [⟨⟨"Org 9", 9⟩, 5000⟩], 1⟩) ∧
    (getAllItems 100 5000 (Except.ok [(⟨"Org 9", 9⟩ : Org)])
        (⟨[⟨⟨"Org 1", 1⟩, 0⟩, ⟨⟨"Org 2", 2⟩, 0⟩], some 0⟩ : CacheState Org)).state.allItems.length =
      [(⟨"Org 9", 9⟩ : Org)].length :=
  getAllItems_refetch_replaces 100 5000 [(⟨"Org 9", 9⟩ : Org)]
    (⟨[⟨⟨"Org 1", 1⟩, 0⟩, ⟨⟨"Org 2", 2⟩, 0⟩], some 0⟩ : CacheState Org)
    (Or.inr ⟨0, rfl, by decide⟩)

/-- C6: when the cache lookup for `id` finds an entry and that entry is
fresh (`now - lastFetched` at most `singleItemCacheMs`),
`getSingleItem id` returns the cached record, makes no Backend call, and
leaves the cache state unchanged. -/
theorem getSingleItem_fresh_cache_hit {T Uid : Type} [DecidableEq Uid]
    (getUid : T → Uid) (singleItemCacheMs now : Nat) (id : Uid)
    (backend : Except Unit (Option T)) (s : CacheState T) (e : StoreItem T)
    (hfind : s.allItems.find? (fun x => getUid x.item == id) = some e)
    (hfresh : now - e.lastFetched ≤ singleItemCacheMs) :
    getSingleItem getUid singleItemCacheMs now id backend s =
      ⟨s, some e.item, 0⟩ := by
  have hexp : cacheHasExpired e.lastFetched singleItemCacheMs now = false := by
    simp only [cacheHasExpired, decide_eq_false_iff_not, gt_iff_lt, Nat.not_lt]
    exact hfresh
  unfold getSingleItem
  rw [hfind]
  simp [hexp]

/-- Witness for C6: a cache with entries for uids 1 and 2, queried for
uid 2 at time 1000 within a 60000 ms TTL, answers from the cache even
with a rejecting Backend. -/
theorem getSingleItem_fresh_cache_hit_witness :
    getSingleItem orgUid 60000 1000 2 (Except.error ())
        (⟨[⟨⟨"Org 1", 1⟩, 400⟩, ⟨⟨"Org 2", 2⟩, 400⟩], none⟩ : CacheState Org) =
      ⟨⟨[⟨⟨"Org 1", 1⟩, 400⟩, ⟨⟨"Org 2", 2⟩, 400⟩], none⟩, some ⟨"Org 2", 2⟩, 0⟩ :=
  getSingleItem_fresh_cache_hit orgUid 60000 1000 2 (Except.error ())
    ⟨[⟨⟨"Org 1", 1⟩, 400⟩, ⟨⟨"Org 2", 2⟩, 400⟩], none⟩ ⟨⟨"Org 2", 2⟩, 400⟩
    (by decide) (by decide)

/-- C3: the upsert `updateStoreItem` matches entries by
`getUid newRecord`: when no entry matches it appends the stamped entry
at the end; when one matches (under the uniqueness invariant) it
replaces exactly that entry in place, preserving its position; and two
successive upserts with records sharing one uid leave exactly one entry
for that identifier, holding the second record stamped with the second
time. -/
theorem updateStoreItem_upsert_spec {T Uid : Type} [DecidableEq Uid]
    (getUid : T → Uid) (t1 t2 : Nat) (r1 r2 : T) (l : List (StoreItem T)) :
    ((∀ e ∈ l, getUid e.item ≠ getUid r1) →
      updateStoreItem getUid t1 r1 l = l ++ [⟨r1, t1⟩]) ∧
    (uidUnique getUid l → ∀ e ∈ l, getUid e.item = getUid r1 →
      ∃ i, l[i]? = some e ∧
        updateStoreItem getUid t1 r1 l = l.set i ⟨r1, t1⟩) ∧
    (uidUnique getUid l → getUid r1 = getUid r2 →
      (updateStoreItem getUid t2 r2 (updateStoreItem getUid t1 r1 l)).filter
          (fun e => getUid e.item == getUid r2) = [⟨r2, t2⟩]) := by
  refine ⟨?_, ?_, ?_⟩
  · intro h
    rw [updateStoreItem_eq_upsertRec]
    exact upsertRec_of_no_match getUid t1 r1 l h
  · intro hU e he heq
    rw [updateStoreItem_eq_upsertRec]
    exact upsertRec_of_match getUid t1 r1 l hU e he heq
  · intro hU heq
    rw [updateStoreItem_eq_upsertRec, updateStoreItem_eq_upsertRec]
    exact filter_upsertRec getUid t2 r2 (upsertRec getUid t1 r1 l)
      (uidUnique_upsertRec getUid t1 r1 l hU)

/-- Witness for C3: upserting uid 2 twice into a one-entry cache for
uid 1 leaves exactly one uid-2 entry, holding the second record. -/
theorem updateStoreItem_upsert_spec_witness :
    (updateStoreItem orgUid 3 (⟨"B", 2⟩ : Org)
        (updateStoreItem orgUid 1 (⟨"A", 2⟩ : Org) [⟨⟨"X", 1⟩, 0⟩])).filter
        (fun e => orgUid e.item == orgUid (⟨"B", 2⟩ : Org)) = [⟨⟨"B", 2⟩, 3⟩] :=
  (updateStoreItem_upsert_spec orgUid 1 3 ⟨"A", 2⟩ ⟨"B", 2⟩
    [⟨⟨"X", 1⟩, 0⟩]).2.2 (by decide) (by decide)

/-- C7: on a successful Backend update, `updateItem` upserts the record
the Backend returned and matches cache entries by the uid of that
returned record, not by the input `id`: the outcome is invariant in the
input id, the call returns the updated record, and (under the
uniqueness invariant) the entry carrying the returned uid is the one
replaced, whatever id was passed in. -/
theorem updateItem_matches_returned_uid {T Uid : Type} [DecidableEq Uid]
    (getUid : T → Uid) (now : Nat) (updated r : T) (s : CacheState T) :
    (∀ id1 id2 : Uid,
      updateItem getUid now (Except.ok updated) id1 r s =
        updateItem getUid now (Except.ok updated) id2 r s) ∧
    (∀ id : Uid,
      (updateItem getUid now (Except.ok updated) id r s).ret = some updated) ∧
    (∀ id : Uid, uidUnique getUid s.allItems →
      ∀ e ∈ s.allItems, getUid e.item = getUid updated →
      ∃ i, s.allItems[i]? = some e ∧
        (updateItem getUid now (Except.ok updated) id r s).state.allItems =
          s.allItems.set i ⟨updated, now⟩) := by
  refine ⟨fun id1 id2 => rfl, fun id => rfl, fun id hU e he heq => ?_⟩
  obtain ⟨i, h1, h2⟩ := upsertRec_of_match getUid now updated s.allItems hU e he heq
  refine ⟨i, h1, ?_⟩
  show updateStoreItem getUid now updated s.allItems = _
  rw [updateStoreItem_eq_upsertRec]
  exact h2

/-- Witness for C7: the Backend returns a record with uid 5 while the
caller passed id 3; the uid-5 entry is the one replaced. -/
theorem updateItem_matches_returned_uid_witness :
    ∃ i, ([⟨(⟨"A", 5⟩ : Org), 0⟩] : List (StoreItem Org))[i]? =
        some ⟨⟨"A", 5⟩, 0⟩ ∧
      (updateItem orgUid 9 (Except.ok (⟨"B", 5⟩ : Org)) 3 (⟨"B", 5⟩ : Org)
          (⟨[⟨⟨"A", 5⟩, 0⟩], none⟩ : CacheState Org)).state.allItems =
        ([⟨(⟨"A", 5⟩ : Org), 0⟩] : List (StoreItem Org)).set i ⟨⟨"B", 5⟩, 9⟩ :=
  (updateItem_matches_returned_uid orgUid 9 ⟨"B", 5⟩ ⟨"B", 5⟩
    (⟨[⟨⟨"A", 5⟩, 0⟩], none⟩ : CacheState Org)).2.2 3 (by decide)
    ⟨⟨"A", 5⟩, 0⟩ (by decide) (by decide)

/-- C4: every Backend failure is contained: a rejected fetch-all on the
slow path, a rejected or empty-handed fetch-one past the cache check,
and a rejected update or create all resolve to an absent result while
leaving the cache state unchanged. -/
theorem backend_failure_containment {T Uid : Type} [DecidableEq Uid]
    (getUid : T → Uid) (allItemsCacheMs singleItemCacheMs now : Nat)
    (id : Uid) (r : T) (s : CacheState T) :
    (collectionCacheValid allItemsCacheMs now s = false →
      getAllItems allItemsCacheMs now (Except.error ()) s = ⟨s, none, 1⟩) ∧
    (∀ backend : Except Unit (Option T),
      (backend = Except.error () ∨ backend = Except.ok none) →
      (∀ e, s.allItems.find? (fun x => getUid x.item == id) = some e →
        cacheHasExpired e.lastFetched singleItemCacheMs now = true) →
      getSingleItem getUid singleItemCacheMs now id backend s = ⟨s, none, 1⟩) ∧
    (updateItem getUid now (Except.error ()) id r s = ⟨s, none, 1⟩) ∧
    (createItem getUid now (Except.error ()) r s = ⟨s, none, 1⟩) := by
  refine ⟨?_, ?_, rfl, rfl⟩
  · intro hvalid
    unfold getAllItems
    rw [hvalid]
    rfl
  · intro backend hb hmiss
    rcases getSingleItem_eq_hit_or_fetch getUid singleItemCacheMs now id backend s
      with ⟨e, hfind, hexp, _⟩ | heq
    · rw [hmiss e hfind] at hexp
      cases hexp
    · rw [heq]
      exact singleFetchPath_absent getUid now backend s hb

/-- Witness for C4 on the empty cache with failing Backends: all four
public operations resolve absent and leave the state empty. -/
theorem backend_failure_containment_witness :
    (getAllItems 100 1000 (Except.error ()) (emptyCache Org) =
      ⟨emptyCache Org, none, 1⟩) ∧
    (getSingleItem orgUid 100 1000 7 (Except.ok none) (emptyCache Org) =
      ⟨emptyCache Org, none, 1⟩) ∧
    (updateItem orgUid 1000 (Except.error ()) 7 (⟨"A", 7⟩ : Org) (emptyCache Org) =
      ⟨emptyCache Org, none, 1⟩) ∧
    (createItem orgUid 1000 (Except.error ()) (⟨"A", 7⟩ : Org) (emptyCache Org) =
      ⟨emptyCache Org, none, 1⟩) :=
  ⟨(backend_failure_containment orgUid 100 100 1000 7 ⟨"A", 7⟩
      (emptyCache Org)).1 (by decide),
   (backend_failure_containment orgUid 100 100 1000 7 ⟨"A", 7⟩
      (emptyCache Org)).2.1 (Except.ok none) (Or.inr rfl)
      (fun e he => by simp [emptyCache] at he),
   (backend_failure_containment orgUid 100 100 1000 7 ⟨"A", 7⟩
      (emptyCache Org)).2.2.1,
   (backend_failure_containment orgUid 100 100 1000 7 ⟨"A", 7⟩
      (emptyCache Org)).2.2.2⟩

/-- C8: frame property of the single-item operations.  A successful
fetch-one for id `A` whose Backend record carries uid `A` (the Backend
contract, satisfied by the demo api) keeps every entry with a different
uid at its position unchanged; a successful update or create keeps every
entry whose uid differs from the returned record at its position
unchanged; and no single-item operation (fetch-one, update, create, or
the binding get/save helpers) ever modifies `lastFetchedAllItems`. -/
theorem singleItemOps_frame {T Uid : Type} [DecidableEq Uid]
    (getUid : T → Uid) (singleItemCacheMs now : Nat) (id : Uid)
    (s : CacheState T) (j : Nat) (e : StoreItem T) :
    (∀ recd : T, getUid recd = id → s.allItems[j]? = some e →
      getUid e.item ≠ id →
      (getSingleItem getUid singleItemCacheMs now id (Except.ok (some recd))
        s).state.allItems[j]? = some e) ∧
    (∀ u r : T, s.allItems[j]? = some e → getUid e.item ≠ getUid u →
      (updateItem getUid now (Except.ok u) id r s).state.allItems[j]? = some e ∧
      (createItem getUid now (Except.ok u) u s).state.allItems[j]? = some e) ∧
    (∀ backend : Except Unit (Option T),
      (getSingleItem getUid singleItemCacheMs now id backend
        s).state.lastFetchedAllItems = s.lastFetchedAllItems) ∧
    (∀ (backend : Except Unit T) (r : T),
      (updateItem getUid now backend id r s).state.lastFetchedAllItems =
        s.lastFetchedAllItems ∧
      (createItem getUid now backend r s).state.lastFetchedAllItems =
        s.lastFetchedAllItems) ∧
    (∀ (backend : Except Unit (Option T)) (b : ItemBinding T),
      ((bindingGet getUid singleItemCacheMs now id backend b s).2).lastFetchedAllItems =
        s.lastFetchedAllItems) ∧
    (∀ (backend : Except Unit T) (b : ItemBinding T),
      ((saveItem getUid now backend b s).2).lastFetchedAllItems =
        s.lastFetchedAllItems) := by
  have hsingle_lf : ∀ backend : Except Unit (Option T),
      (getSingleItem getUid singleItemCacheMs now id backend
        s).state.lastFetchedAllItems = s.lastFetchedAllItems := by
    intro backend
    rcases getSingleItem_state_cases getUid singleItemCacheMs now id backend s
      with hs | ⟨recd, _, hs⟩ <;> rw [hs]
  have hupd_lf : ∀ (backend : Except Unit T) (id' : Uid) (r : T),
      (updateItem getUid now backend id' r s).state.lastFetchedAllItems =
        s.lastFetchedAllItems := by
    intro backend id' r
    rcases updateItem_state_cases getUid now backend id' r s
      with hs | ⟨u, _, hs⟩ <;> rw [hs]
  refine ⟨?_, ?_, hsingle_lf, ?_, ?_, ?_⟩
  · intro recd hrec hj hne
    rcases getSingleItem_eq_hit_or_fetch getUid singleItemCacheMs now id
      (Except.ok (some recd)) s with ⟨ex, _, _, heq⟩ | heq
    · rw [heq]
      exact hj
    · rw [heq, singleFetchPath_ok_some]
      show (updateStoreItem getUid now recd s.allItems)[j]? = some e
      rw [updateStoreItem_eq_upsertRec]
      exact upsertRec_getElem?_of_ne getUid now recd s.allItems j e hj
        (fun h => hne (h.trans hrec))
  · intro u r hj hne
    constructor
    · show (updateStoreItem getUid now u s.allItems)[j]? = some e
      rw [updateStoreItem_eq_upsertRec]
      exact upsertRec_getElem?_of_ne getUid now u s.allItems j e hj hne
    · show (updateStoreItem getUid now u s.allItems)[j]? = some e
      rw [updateStoreItem_eq_upsertRec]
      exact upsertRec_getElem?_of_ne getUid now u s.allItems j e hj hne
  · intro backend r
    refine ⟨hupd_lf backend id r, ?_⟩
    rcases createItem_state_cases getUid now backend r s
      with hs | ⟨u, _, hs⟩ <;> rw [hs]
  · intro backend b
    exact hsingle_lf backend
  · intro backend b
    unfold saveItem
    cases hv : b.value with
    | none => rfl
    | some v => exact hupd_lf backend (getUid v) v

/-- Witness for C8: a fresh fetch of uid 2 into a cache holding uid 1
leaves the uid-1 entry at position 0 untouched, and all frame equalities
hold at this concrete state. -/
theorem singleItemOps_frame_witness :
    (getSingleItem orgUid 100 1000 2 (Except.ok (some (⟨"Org 2", 2⟩ : Org)))
        (⟨[⟨⟨"Org 1", 1⟩, 0⟩], some 0⟩ : CacheState Org)).state.allItems[0]? =
      some ⟨⟨"Org 1", 1⟩, 0⟩ :=
  (singleItemOps_frame orgUid 100 1000 2
      (⟨[⟨⟨"Org 1", 1⟩, 0⟩], some 0⟩ : CacheState Org) 0 ⟨⟨"Org 1", 1⟩, 0⟩).1
    ⟨"Org 2", 2⟩ rfl (by decide) (by decide)

/-- C9 counterexample: the claim says a failed underlying update leaves
the saving flag permanently true; but `updateItem` catches the rejection
and its promise fulfills, so `saveItem` still runs its final
`saving := false` write.  Here the update rejects and the flag still
ends false. -/
theorem saveItem_failure_resets_saving :
    (saveItem orgUid 1000 (Except.error ())
      (⟨some ⟨"Org 1", 1⟩, false, true⟩ : ItemBinding Org)
      (emptyCache Org)).1.saving = false := by
  decide

/-- C9 amended: with a bound value `saveItem` completes with
`saving = false` on both outcomes of the underlying update — the
transient true flag is always reset, also when the Backend update
rejects, because `updateItem` absorbs the failure; the bound value is
left as it was. -/
theorem saveItem_always_resets_saving {T Uid : Type} [DecidableEq Uid]
    (getUid : T → Uid) (now : Nat) (backend : Except Unit T)
    (b : ItemBinding T) (s : CacheState T) (v : T) (hv : b.value = some v) :
    (saveItem getUid now backend b s).1.saving = false ∧
    (saveItem getUid now backend b s).1.value = b.value := by
  unfold saveItem
  rw [hv]
  exact ⟨rfl, rfl⟩

/-- Witness for C9 amended, at a failing Backend update. -/
theorem saveItem_always_resets_saving_witness :
    (saveItem orgUid 5 (Except.error ())
      (⟨some ⟨"Org 2", 2⟩, false, false⟩ : ItemBinding Org)
      (emptyCache Org)).1.saving = false ∧
    (saveItem orgUid 5 (Except.error ())
      (⟨some ⟨"Org 2", 2⟩, false, false⟩ : ItemBinding Org)
      (emptyCache Org)).1.value = some ⟨"Org 2", 2⟩ :=
  saveItem_always_resets_saving orgUid 5 (Except.error ())
    ⟨some ⟨"Org 2", 2⟩, false, false⟩ (emptyCache Org) ⟨"Org 2", 2⟩ rfl

/-- C10: a binding fresh out of `itemHelpers(id)` has `getting = true`
before any `get` call, no bound value, and `saving = false`; the
`getting` flag is false after a completed `get`, and `saveItem` never
touches it. -/
theorem itemHelpers_initial_state {T Uid : Type} [DecidableEq Uid]
    (getUid : T → Uid) (singleItemCacheMs now : Nat) (id : Uid)
    (backend : Except Unit (Option T)) (s : CacheState T) :
    (itemHelpers T id).getting = true ∧
    (itemHelpers T id).value = none ∧
    (itemHelpers T id).saving = false ∧
    (∀ b : ItemBinding T,
      (bindingGet getUid singleItemCacheMs now id backend b s).1.getting =
        false) ∧
    (∀ (backendU : Except Unit T) (b : ItemBinding T) (su : CacheState T),
      (saveItem getUid now backendU b su).1.getting = b.getting) := by
  refine ⟨rfl, rfl, rfl, fun b => rfl, fun backendU b su => ?_⟩
  unfold saveItem
  cases hv : b.value with
  | none => rfl
  | some v => rfl

/-- C5 counterexample: the uniqueness invariant is not maintained against
every operation sequence — `getAllItems` installs the Backend fetch-all
result wholesale without deduplication, so a fetch-all whose result
repeats uid 1 makes a reachable state (one operation from the empty
cache) with two entries for the same identifier. -/
theorem duplicate_uids_reachable :
    ¬ uidUnique orgUid
      ((runOps orgUid 60000 60000 (emptyCache Org)
        [CacheOp.opGetAll 0 (Except.ok [⟨"A", 1⟩, ⟨"B", 1⟩])]).allItems) := by
  decide

/-- C5 amended: starting from the empty cache, after any sequence of
public operations in which every successful Backend fetch-all result
itself carries pairwise-distinct uids, the entry list holds at most one
entry per identifier — the single-item writes (upserts) preserve
uniqueness unconditionally, replacing rather than duplicating on a
colliding identifier. -/
theorem reachable_states_uidUnique {T Uid : Type} [DecidableEq Uid]
    (getUid : T → Uid) (allItemsCacheMs singleItemCacheMs : Nat)
    (ops : List (CacheOp T Uid))
    (hops : ∀ op ∈ ops, ∀ now items,
      op = CacheOp.opGetAll now (Except.ok items) →
      (items.map getUid).Nodup) :
    uidUnique getUid
      ((runOps getUid allItemsCacheMs singleItemCacheMs (emptyCache T)
        ops).allItems) :=
  runOps_preserves_uidUnique getUid allItemsCacheMs singleItemCacheMs ops
    (emptyCache T) (by simp [emptyCache, uidUnique]) hops

/-- Witness for C5 amended: a duplicate-free fetch-all followed by a
fetch-one for a new uid keeps the invariant. -/
theorem reachable_states_uidUnique_witness :
    uidUnique orgUid
      ((runOps orgUid 60000 60000 (emptyCache Org)
        [CacheOp.opGetAll 0 (Except.ok [⟨"A", 1⟩, ⟨"B", 2⟩]),
         CacheOp.opGetSingle 5 3 (Except.ok (some ⟨"C", 3⟩))]).allItems) :=
  reachable_states_uidUnique orgUid 60000 60000
    [CacheOp.opGetAll 0 (Except.ok [⟨"A", 1⟩, ⟨"B", 2⟩]),
     CacheOp.opGetSingle 5 3 (Except.ok (some ⟨"C", 3⟩))]
    (by
      intro op hop now items heq
      rcases List.mem_cons.mp hop with rfl | hop'
      · cases heq
        decide
      · rcases List.mem_cons.mp hop' with rfl | hop''
        · cases heq
        · cases hop'')
